import Mathlib

/-!
Verification development for the SW5e Enhanced Item Mod Manager
(`src/sw5e-mod-manager.js`).

The file shallowly embeds the module's data model and operations:

* the type-masking transform applied by the `preCreateItem` hook
  (`maskRecord` / `preCreateItemHook`) and the read-back performed by
  `performInstall` (`installPayload`);
* the classifier `isModification`;
* the slot/rarity gating helpers `hasAvailableSlots`, `getSlotCountDisplay`
  and `validateRarity`;
* the effect/tag projector `getInjectedProperties` and the effect
  preprocessing done inside `performInstall`;
* the lifecycle transactions `performInstall` and `performRemove`, and the
  user-facing entry points (the drop handler of `renderItemSheet` plus the
  `showModActionDialog` resolution), modelled as `dropInstall` and
  `removeClick`.

JavaScript conventions are made explicit: possibly-absent values are
`Option`s, `x || d` on strings is `jsOrS`, `x || 0` on numbers is `jsOrN`,
`?? d` on a settings lookup is `Option.getD`, and a field access that can
raise a `TypeError` on `undefined` is modelled by returning a `threw`
outcome (state mutations already committed before the throwing statement
are kept, matching JS exception semantics).
-/

namespace SW5e

/-! ### String helpers mirroring the JavaScript primitives used by the source -/

/-- Does `s` start with the characters `sub`? (helper for `strIncludes`). -/
def leadMatch : List Char → List Char → Bool
  | [], _ => true
  | _ :: _, [] => false
  | a :: as, b :: bs => a == b && leadMatch as bs

/-- Helper scanning every suffix of `s` for a leading occurrence of `sub`. -/
def includesAux (sub : List Char) : List Char → Bool
  | [] => leadMatch sub []
  | c :: rest => leadMatch sub (c :: rest) || includesAux sub rest

/-- Mirror of JavaScript `s.includes(sub)` (substring test). -/
def strIncludes (s sub : String) : Bool :=
  includesAux sub.data s.data

/-- Mirror of JavaScript `s.toLowerCase()`, character by character. -/
def jsToLower (s : String) : String :=
  String.mk (s.data.map Char.toLower)

/-- Mirror of `.replace(/\s/g, '')`: drop every whitespace character. -/
def stripWs (s : String) : String :=
  String.mk (s.data.filter (fun c => !c.isWhitespace))

/-- Mirror of the JavaScript string default `x || d`: an absent or empty
string is falsy and falls through to the default. -/
def jsOrS (a : Option String) (d : String) : String :=
  match a with
  | some s => if s = "" then d else s
  | none => d

/-- Mirror of the JavaScript numeric default `x || 0` on a possibly-absent
numeric field (`0 || 0 = 0`, so `getD` agrees with `||`). -/
def jsOrN (a : Option Nat) : Nat :=
  a.getD 0

/-! ### Data model

`ItemRecord` is the plain-object form of an item (what `item.toObject()`
returns): name, declared type, image, system data, and the vendor flags
used by the module (`sw5e-mod-manager.isWrappedMod`,
`sw5e-mod-manager.originalModData`, and the `sw5e.type` flag read by
`isModification`).  It is an inductive type because a masked record embeds
the full original record under `originalModData`. -/

/-- The `system.type` sub-object (`value` / `label`) read by `isModification`. -/
structure TypeRec where
  value : Option String
  label : Option String
  deriving Repr, DecidableEq

/-- The `system` data of an item.  `description` is kept opaque (the module
only ever copies it whole).  `propertyFlags` models the boolean-valued
`system.properties` object scanned by `getInjectedProperties`. -/
structure SystemData where
  description : Option String
  rarity : Option String
  weight : Option Nat
  price : Option Nat
  typeRec : Option TypeRec
  propertyFlags : Option (List (String × Bool))
  deriving Repr, DecidableEq

/-- Plain-object item record, including the vendor-namespaced flags. -/
inductive ItemRecord : Type where
  | mk (name : Option String) (type : String) (img : String) (system : SystemData)
      (isWrappedMod : Bool) (originalModData : Option ItemRecord)
      (sw5eTypeFlag : Option String)

def ItemRecord.name : ItemRecord → Option String
  | .mk n _ _ _ _ _ _ => n

def ItemRecord.type : ItemRecord → String
  | .mk _ t _ _ _ _ _ => t

def ItemRecord.img : ItemRecord → String
  | .mk _ _ i _ _ _ _ => i

def ItemRecord.system : ItemRecord → SystemData
  | .mk _ _ _ s _ _ _ => s

def ItemRecord.isWrappedMod : ItemRecord → Bool
  | .mk _ _ _ _ w _ _ => w

def ItemRecord.originalModData : ItemRecord → Option ItemRecord
  | .mk _ _ _ _ _ o _ => o

def ItemRecord.sw5eTypeFlag : ItemRecord → Option String
  | .mk _ _ _ _ _ _ f => f

/-- An active-effect record.  Only the fields the module touches are named
(`transfer`, `origin`, the `sw5e-mod-manager.sourceMod` flag, and the
document `id` used for batch deletion); the rest of the effect data is the
opaque `payload`, copied verbatim. -/
structure EffectRec where
  id : String
  transfer : Bool
  origin : Option String
  sourceMod : Option String
  payload : String
  deriving Repr, DecidableEq

/-- A live item document: document id, uuid, its plain-object record, and
its embedded effects collection. -/
structure ItemDoc where
  id : String
  uuid : Option String
  record : ItemRecord
  effects : List EffectRec

/-- An entry of the chassis's `installedMods` flag, exactly the object
built by `performInstall`. -/
structure InstalledMod where
  id : String
  name : Option String
  uuid : Option String
  rarity : Option String
  originalData : Option ItemRecord
  properties : List String
  effects : List EffectRec

/-- The owning actor: its embedded item collection. -/
structure ActorState where
  items : List ItemDoc

/-- The chassis item's state: its rarity, uuid, the vendor flag
`installedMods`, its `system.properties` tag list, its embedded effects,
and its owning actor (if any). -/
structure ChassisState where
  rarity : Option String
  uuid : Option String
  installedMods : List InstalledMod
  properties : List String
  effects : List EffectRec
  actor : Option ActorState

/-- World-level view: the chassis plus the sidebar world-item collection
(`game.items`), which `performInstall` never touches. -/
structure WorldState where
  chassis : ChassisState
  worldItems : List ItemDoc

/-! ### Rarity scale, DC table and slot settings -/

/-- The `rarityScale` table of `validateRarity`. -/
def rarityScaleTable : List (String × Nat) :=
  [("common", 1), ("standard", 1), ("uncommon", 2), ("premium", 2),
   ("rare", 3), ("prototype", 3), ("veryrare", 4), ("advanced", 4),
   ("legendary", 5), ("artifact", 6)]

/-- The `rarities` DC table of `showModActionDialog`. -/
def rarityDCTable : List (String × Nat) :=
  [("common", 10), ("standard", 10), ("uncommon", 14), ("premium", 14),
   ("rare", 18), ("prototype", 18), ("veryrare", 22), ("advanced", 22),
   ("legendary", 26), ("artifact", 30)]

/-- Object-key lookup `table[key]` returning `undefined` as `none`. -/
def lookupTab (t : List (String × Nat)) (k : String) : Option Nat :=
  (t.find? (fun p => p.1 == k)).map (fun p => p.2)

/-- The normalized lookup key: `(label || "common").toLowerCase().replace(/\s/g, '')`. -/
def normKey (r : Option String) : String :=
  stripWs (jsToLower (jsOrS r "common"))

/-- Rarity ordinal: `rarityScale[key] || 1` (no table value is `0`, so the
JavaScript `|| 1` coincides with defaulting an absent key to `1`). -/
def rarityOrd (k : String) : Nat :=
  (lookupTab rarityScaleTable k).getD 1

/-- Install/remove DC: `rarities[key] || 14` (no table value is `0`). -/
def rarityDC (k : String) : Nat :=
  (lookupTab rarityDCTable k).getD 14

/-- Maximum slots for a chassis rarity:
`game.settings.get('sw5e-mod-manager', 'slots-' + rarity) ?? 2`, with
`slotSetting` the world-scoped settings store keyed by normalized rarity. -/
def maxSlots (slotSetting : String → Option Nat) (rarity : Option String) : Nat :=
  (slotSetting (normKey rarity)).getD 2

/-- The `(used, max)` pair rendered by `getSlotCountDisplay`. -/
def getSlotCountDisplay (slotSetting : String → Option Nat) (st : ChassisState) : Nat × Nat :=
  (st.installedMods.length, maxSlots slotSetting st.rarity)

/-- Mirror of `hasAvailableSlots`: `mods.length < max`. -/
def hasAvailableSlots (slotSetting : String → Option Nat) (st : ChassisState) : Bool :=
  st.installedMods.length < maxSlots slotSetting st.rarity

/-- Mirror of `validateRarity`: reject (return `false`) exactly when the
modification's rank is strictly above the chassis's rank. -/
def validateRarity (chassisRarity modRarity : Option String) : Bool :=
  let chassisRank := rarityOrd (normKey chassisRarity)
  let modRank := rarityOrd (normKey modRarity)
  if modRank > chassisRank then false else true

/-! ### Type-mask codec -/

/-- The mutation applied by the `preCreateItem` hook: rewrite the declared
type to `"loot"` and store the full pre-mutation record (`item.toObject()`)
under the vendor flags, keeping every other field. -/
def maskRecord (r : ItemRecord) : ItemRecord :=
  match r with
  | .mk n _ i s _ _ f => .mk n "loot" i s true (some r) f

/-- The `preCreateItem` hook: only records whose declared type is
`"modification"` are intercepted and masked. -/
def preCreateItemHook (r : ItemRecord) : ItemRecord :=
  if r.type == "modification" then maskRecord r else r

/-- The unmasking read-back performed at the top of `performInstall`:
a wrapped record yields its embedded `originalModData`, an unwrapped item
contributes its own `toObject()` data. -/
def installPayload (r : ItemRecord) : Option ItemRecord :=
  if r.isWrappedMod then r.originalModData else some r

/-! ### Classifier -/

/-- Mirror of `isModification`.  Every possibly-absent field access in the
source is optional-chained (`?.`) or defaulted (`|| ""`), which the
embedding mirrors with `Option` operations; the final JavaScript expression
`nameMatch || typeMatch || sw5eFlag` can see `nameMatch === undefined`, in
which case it falls through to the remaining (boolean) disjuncts. -/
def isModification : Option ItemDoc → Bool
  | none => false
  | some item =>
    if item.record.isWrappedMod then true
    else
      let uuid := (item.uuid.map jsToLower).getD ""
      if strIncludes uuid "modifications" then true
      else
        let nameMatch : Option Bool :=
          item.record.name.map (fun n => strIncludes (jsToLower n) "modification")
        let typeValue :=
          ((item.record.system.typeRec.bind TypeRec.value).map jsToLower).getD ""
        let typeLabel :=
          ((item.record.system.typeRec.bind TypeRec.label).map jsToLower).getD ""
        let typeMatch := strIncludes typeValue "modification" ||
          strIncludes typeLabel "modification" || item.record.type == "modification"
        let sw5eFlag := item.record.sw5eTypeFlag == some "modification"
        match nameMatch with
        | some true => true
        | _ => typeMatch || sw5eFlag

/-! ### Effect/tag projector -/

/-- The fixed tag vocabulary of `getInjectedProperties`. -/
def knownProperties : List String :=
  ["brutal", "keen", "vicious", "defensive", "shielding", "vibration", "ion",
   "reach", "versatile", "biting", "corruption", "disarming", "disruptive",
   "electrified", "hidden", "penetrating", "rapid", "shocking", "silent"]

/-- Mirror of `getInjectedProperties`.  The source performs the unguarded
access `mod.name.toLowerCase()`: on an item without a name this raises a
`TypeError`, modelled by `none`. -/
def getInjectedProperties (mod : ItemDoc) : Option (List String) :=
  match mod.record.name with
  | none => none
  | some nm =>
    let nameLower := jsToLower nm
    let fromName := knownProperties.filter (fun p => strIncludes nameLower p)
    let fromFlags :=
      match mod.record.system.propertyFlags with
      | some flags => (flags.filter (fun pr => pr.2 == true)).map (fun pr => pr.1)
      | none => []
    some (fromName ++ fromFlags)

/-- The effect preprocessing of `performInstall`: copy each effect of the
modification, set `transfer`, re-point `origin` at the chassis, and stamp
the `sourceMod` flag. -/
def installEffects (st : ChassisState) (mod : ItemDoc) : List EffectRec :=
  mod.effects.map (fun e => { e with transfer := true, origin := st.uuid, sourceMod := some mod.id })

/-- The `newModData` object appended to the `installedMods` flag. -/
def newModEntry (st : ChassisState) (mod : ItemDoc) (props : List String) : InstalledMod :=
  { id := mod.id, name := mod.record.name, uuid := mod.uuid,
    rarity := mod.record.system.rarity, originalData := installPayload mod.record,
    properties := props, effects := installEffects st mod }

/-- Mirror of `[...new Set([...a, ...b])]`: deduplicate keeping the first
occurrence of each element (JavaScript `Set` iteration order). -/
def jsSetDedup (l : List String) : List String :=
  l.foldl (fun acc x => if acc.contains x then acc else acc ++ [x]) []

/-! ### Lifecycle: install -/

/-- Mirror of `performInstall`.  The result is `none` when the transaction
raises before mutating anything (the `getInjectedProperties` call on a
nameless item, which is the second statement of the function, before any
write); otherwise the updated chassis state.  The steps, in source order:
append the new entry to `installedMods`, create the processed effects on
the chassis (guarded by non-emptiness), merge the injected tags into
`system.properties` (guarded by non-emptiness), and delete the source item
from the owning actor's inventory when the chassis has an actor holding an
item with the source's id. -/
def performInstall (st : ChassisState) (mod : ItemDoc) : Option ChassisState :=
  match getInjectedProperties mod with
  | none => none
  | some injectedProps =>
    let processedEffects := installEffects st mod
    let entry := newModEntry st mod injectedProps
    some
      { rarity := st.rarity
        uuid := st.uuid
        installedMods := st.installedMods ++ [entry]
        effects :=
          if processedEffects.length > 0 then st.effects ++ processedEffects else st.effects
        properties :=
          if injectedProps.length > 0 then jsSetDedup (st.properties ++ injectedProps)
          else st.properties
        actor :=
          match st.actor with
          | some a =>
            if (a.items.find? (fun it => it.id == mod.id)).isSome then
              some ⟨a.items.filter (fun it => !(it.id == mod.id))⟩
            else some a
          | none => none }

/-! ### Lifecycle: removal -/

/-- Outcomes of the removal flow (including the click handler and the
dialog resolution around `performRemove`). -/
inductive RemoveOutcome where
  /-- The `mod-delete` click handler found no entry; no dialog is shown. -/
  | notFound
  /-- The roll callback aborted because the chassis has no owning actor. -/
  | noActor
  /-- Failed roll with `destroyOnFail` unchecked: nothing happens. -/
  | unchanged
  /-- `performRemove` with salvage: the item was reconstituted on the actor. -/
  | salvaged
  /-- `performRemove` destructive branch: the mod is reported destroyed. -/
  | destroyed
  /-- `performRemove` salvage branch that recreates nothing and reports nothing. -/
  | silent
  /-- `performRemove` raised a `TypeError` (`modToRemoval.name` on `undefined`). -/
  | threw
  deriving Repr, DecidableEq

/-- The `lootWrapper` object built by the salvage branch of
`performRemove` (and by `wrapModification`). -/
def lootWrapper (orig : ItemRecord) : ItemRecord :=
  .mk orig.name "loot" orig.img
    { description := orig.system.description, rarity := orig.system.rarity,
      weight := some (jsOrN orig.system.weight), price := some (jsOrN orig.system.price),
      typeRec := none, propertyFlags := none }
    true (some orig) none

/-- Effect deletion step of `performRemove`: collect the effects stamped
with `sourceMod = modId` and batch-delete them by document id. -/
def removeStampedEffects (effects : List EffectRec) (modId : String) : List EffectRec :=
  let effectsToDelete := effects.filter (fun e => e.sourceMod == some modId)
  if effectsToDelete.length > 0 then
    effects.filter (fun e => !((effectsToDelete.map EffectRec.id).contains e.id))
  else effects

/-- Tag subtraction step of `performRemove`: drop every chassis property
listed in the removed entry's `properties` (guarded by non-emptiness). -/
def subtractProps (props : List String) (m : InstalledMod) : List String :=
  if m.properties.length > 0 then props.filter (fun p => !(m.properties.contains p))
  else props

/-- Mirror of `performRemove`.  Steps in source order: filter the entry out
of `installedMods`, delete the effects stamped with the entry's id,
subtract the entry's contributed tags, then either salvage (recreate the
loot wrapper on the owning actor, when there is one and the entry kept an
original payload) or report destruction.  The destructive report
interpolates `modToRemoval.name` without optional chaining, so a missing
entry raises a `TypeError` there — after the (no-op) state writes. -/
def performRemove (st : ChassisState) (modId : String) (isSalvaged : Bool) :
    ChassisState × RemoveOutcome :=
  let modToRemoval := st.installedMods.find? (fun m => m.id == modId)
  let base : ChassisState :=
    { rarity := st.rarity
      uuid := st.uuid
      installedMods := st.installedMods.filter (fun m => !(m.id == modId))
      effects := removeStampedEffects st.effects modId
      properties :=
        match modToRemoval with
        | some m => subtractProps st.properties m
        | none => st.properties
      actor := st.actor }
  if isSalvaged then
    match modToRemoval with
    | some m =>
      match st.actor, m.originalData with
      | some a, some orig =>
        ({ base with actor := some ⟨a.items ++ [⟨"", none, lootWrapper orig, []⟩]⟩ }, .salvaged)
      | _, _ => (base, .silent)
    | none => (base, .silent)
  else
    match modToRemoval with
    | some _ => (base, .destroyed)
    | none => (base, .threw)

/-! ### User-facing entry points -/

/-- Resolution mode chosen in `showModActionDialog`: the Direct button, or
the Roll button with the evaluated total of
`1d20 + @abilities.int.mod + @prof`. -/
inductive Resolution where
  | direct
  | checked (total : Int)
  deriving Repr, DecidableEq

/-- Outcomes of the drop-handler install flow. -/
inductive InstallOutcome where
  /-- `isModification` rejected the dropped item. -/
  | notAMod
  /-- `hasAvailableSlots` rejected: chassis full. -/
  | noSlots
  /-- `validateRarity` rejected: modification rarity above the chassis's. -/
  | rarityRejected
  /-- The roll callback aborted because the chassis has no owning actor. -/
  | noActor
  /-- The roll fell below the DC; nothing happens. -/
  | rollFailed
  /-- `performInstall` committed the transaction. -/
  | installed
  /-- `performInstall` raised before mutating anything. -/
  | threw
  deriving Repr, DecidableEq

/-- The dialog DC for an install: key
`(mod.system?.rarity || mod.rarity || 'common')` normalized — an `ItemDoc`
has no own `rarity` property, so only `system.rarity` applies. -/
def dialogDCDoc (mod : ItemDoc) : Nat :=
  rarityDC (normKey mod.record.system.rarity)

/-- The dialog DC for a removal: the stored entry has no `system`, so the
key chain reads the entry's stored `rarity`. -/
def dialogDCMod (m : InstalledMod) : Nat :=
  rarityDC (normKey m.rarity)

/-- The drop handler of `renderItemSheet` composed with
`showModActionDialog`'s install resolution: classifier gate, capacity gate,
rarity gate (in that order), then Direct or Checked resolution. -/
def dropInstall (slotSetting : String → Option Nat) (st : ChassisState) (mod : ItemDoc)
    (res : Resolution) : ChassisState × InstallOutcome :=
  if !(isModification (some mod)) then (st, .notAMod)
  else if !(hasAvailableSlots slotSetting st) then (st, .noSlots)
  else if !(validateRarity st.rarity mod.record.system.rarity) then (st, .rarityRejected)
  else
    match res with
    | .direct =>
      match performInstall st mod with
      | some st' => (st', .installed)
      | none => (st, .threw)
    | .checked total =>
      match st.actor with
      | none => (st, .noActor)
      | some _ =>
        if total ≥ (dialogDCDoc mod : Int) then
          match performInstall st mod with
          | some st' => (st', .installed)
          | none => (st, .threw)
        else (st, .rollFailed)

/-- The `mod-delete` click handler composed with `showModActionDialog`'s
removal resolution: a missing entry shows no dialog; Direct removes with
salvage; a Checked roll at or above the entry's DC removes with salvage,
below it the `destroyOnFail` checkbox decides between destructive removal
and no change. -/
def removeClick (st : ChassisState) (modId : String) (res : Resolution)
    (destroyOnFail : Bool) : ChassisState × RemoveOutcome :=
  match st.installedMods.find? (fun m => m.id == modId) with
  | none => (st, .notFound)
  | some modData =>
    match res with
    | .direct => performRemove st modId true
    | .checked total =>
      match st.actor with
      | none => (st, .noActor)
      | some _ =>
        if total ≥ (dialogDCMod modData : Int) then performRemove st modId true
        else if destroyOnFail then performRemove st modId false
        else (st, .unchanged)

/-- World-level install wrapper: `performInstall` (and the whole drop
handler) only ever mutates the chassis document, its actor's inventory and
its embedded collections; the sidebar `game.items` collection is never
touched. -/
def dropInstallW (slotSetting : String → Option Nat) (w : WorldState) (mod : ItemDoc)
    (res : Resolution) : WorldState × InstallOutcome :=
  let r := dropInstall slotSetting w.chassis mod res
  ({ w with chassis := r.1 }, r.2)

/-! ### Sequences of interface operations -/

/-- One operation of the public interface against a chassis. -/
inductive Op where
  /-- Drag-and-drop install of a candidate item, with a chosen resolution. -/
  | drop (mod : ItemDoc) (res : Resolution)
  /-- Click-initiated removal of an installed entry. -/
  | uninstall (modId : String) (res : Resolution) (destroyOnFail : Bool)

/-- The state reached after one interface operation. -/
def runOp (slotSetting : String → Option Nat) (st : ChassisState) : Op → ChassisState
  | .drop mod res => (dropInstall slotSetting st mod res).1
  | .uninstall modId res dof => (removeClick st modId res dof).1

/-- The state reached after a sequence of interface operations. -/
def runOps (slotSetting : String → Option Nat) (st : ChassisState) : List Op → ChassisState
  | [] => st
  | op :: rest => runOps slotSetting (runOp slotSetting st op) rest

/-- The slot-capacity invariant: the installed list never exceeds the
configured maximum for the chassis's rarity. -/
def slotInv (slotSetting : String → Option Nat) (st : ChassisState) : Prop :=
  st.installedMods.length ≤ maxSlots slotSetting st.rarity

instance (slotSetting : String → Option Nat) (st : ChassisState) :
    Decidable (slotInv slotSetting st) := by
  unfold slotInv
  infer_instance

/-! ### Sample data used by witnesses and counterexamples -/

/-- A `system` object with every optional field absent. -/
def emptySystem : SystemData :=
  { description := none, rarity := none, weight := none, price := none,
    typeRec := none, propertyFlags := none }

/-- A `system` object carrying only a rarity. -/
def raritySystem (r : Option String) : SystemData :=
  { emptySystem with rarity := r }

/-- A raw `"modification"`-typed record, as dropped from a compendium. -/
def sampleModRecord : ItemRecord :=
  .mk (some "Keen Emitter Modification") "modification" "icons/mod.png"
    (raritySystem (some "common")) false none none

/-- A world-settings store giving every rarity its default two slots. -/
def slotSetting0 : String → Option Nat := fun _ => some 2

/-- An empty common chassis with no owning actor. -/
def chassis0 : ChassisState :=
  { rarity := some "common", uuid := some "Item.w1", installedMods := [],
    properties := [], effects := [], actor := none }

/-- A live document for `sampleModRecord` (a common modification). -/
def modDoc0 : ItemDoc :=
  { id := "m1", uuid := some "Item.m1", record := sampleModRecord, effects := [] }

/-- A rare wrapped-style modification document (classified through its name). -/
def modRare0 : ItemDoc :=
  { id := "m2", uuid := some "Item.m2",
    record := .mk (some "Vicious Power Cell Modification") "loot" "icons/m2.png"
      (raritySystem (some "rare")) false none none,
    effects := [] }

/-- An installed entry that contributed the single tag `"keen"`. -/
def keenEntry (i : String) : InstalledMod :=
  { id := i, name := some "Keen Mod", uuid := none, rarity := some "common",
    originalData := none, properties := ["keen"], effects := [] }

/-- A chassis whose two installed entries both contributed `"keen"`. -/
def dualTagChassis : ChassisState :=
  { rarity := some "common", uuid := some "Item.w2",
    installedMods := [keenEntry "m1", keenEntry "m2"],
    properties := ["keen"], effects := [], actor := none }

/-- An empty actor inventory. -/
def actor0 : ActorState := { items := [] }

/-- An actor-owned chassis with one installed entry and one stamped effect. -/
def c5Chassis : ChassisState :=
  { rarity := some "common", uuid := some "Item.w3",
    installedMods := [keenEntry "m1"], properties := ["keen"],
    effects := [{ id := "e1", transfer := true, origin := some "Item.w3",
                  sourceMod := some "m1", payload := "boost" }],
    actor := some actor0 }

/-- A world whose sidebar collection holds the source modification and
whose chassis has no owning actor. -/
def world0 : WorldState := { chassis := chassis0, worldItems := [modDoc0] }

/-- An installed entry that preserved its original payload. -/
def c9Entry : InstalledMod :=
  { id := "m9", name := some "Shielding Modification", uuid := none,
    rarity := some "common", originalData := some sampleModRecord,
    properties := [], effects := [] }

/-- An actor-owned chassis holding `c9Entry`. -/
def c9Chassis : ChassisState :=
  { rarity := some "common", uuid := some "Item.w9", installedMods := [c9Entry],
    properties := [], effects := [], actor := some actor0 }

/-! ### Helper lemmas -/

/-- Membership through the JS-`Set` fold, generalized over the accumulator. -/
theorem mem_foldlDedup (l : List String) (x : String) :
    ∀ acc, (x ∈ List.foldl (fun acc y => if acc.contains y then acc else acc ++ [y]) acc l ↔
      x ∈ acc ∨ x ∈ l) := by
  induction l with
  | nil => intro acc; simp
  | cons y ys ih =>
    intro acc
    simp only [List.foldl_cons]
    by_cases hy : acc.contains y = true
    · have hmem : y ∈ acc := by simpa using hy
      rw [if_pos hy, ih]
      simp only [List.mem_cons]
      constructor
      · rintro (h | h)
        · exact Or.inl h
        · exact Or.inr (Or.inr h)
      · rintro (h | rfl | h)
        · exact Or.inl h
        · exact Or.inl hmem
        · exact Or.inr h
    · rw [if_neg hy, ih]
      simp only [List.mem_append, List.mem_cons, List.mem_singleton]
      tauto

/-- `jsSetDedup` preserves membership in both directions. -/
theorem mem_jsSetDedup (l : List String) (x : String) : x ∈ jsSetDedup l ↔ x ∈ l := by
  unfold jsSetDedup
  rw [mem_foldlDedup l x []]
  simp

/-- After the effect-deletion step, no surviving effect is stamped with the
removed id. -/
theorem removeStampedEffects_not_stamped (effects : List EffectRec) (modId : String) :
    ∀ e ∈ removeStampedEffects effects modId, e.sourceMod ≠ some modId := by
  intro e he
  unfold removeStampedEffects at he
  by_cases hlen : (effects.filter (fun e => e.sourceMod == some modId)).length > 0
  · rw [if_pos hlen] at he
    rcases List.mem_filter.mp he with ⟨hmem, hpred⟩
    intro hstamp
    simp at hpred
    exact hpred e hmem hstamp rfl
  · rw [if_neg hlen] at he
    have hzero : (effects.filter (fun e => e.sourceMod == some modId)).length = 0 := by omega
    have hnil : effects.filter (fun e => e.sourceMod == some modId) = [] :=
      List.length_eq_zero.mp hzero
    have hq := List.filter_eq_nil_iff.mp hnil e he
    intro hstamp
    simp [hstamp] at hq

/-- When no effect carries the removed id's stamp, the effect-deletion step
is the identity. -/
theorem removeStampedEffects_of_none (effects : List EffectRec) (modId : String)
    (h : ∀ e ∈ effects, e.sourceMod ≠ some modId) :
    removeStampedEffects effects modId = effects := by
  unfold removeStampedEffects
  have hnil : effects.filter (fun e => e.sourceMod == some modId) = [] := by
    refine List.filter_eq_nil_iff.mpr ?_
    intro e he
    simp [h e he]
  rw [hnil]
  simp

/-- `validateRarity` fails exactly on a strictly higher-ranked modification. -/
theorem validateRarity_eq_false_iff (c m : Option String) :
    validateRarity c m = false ↔ rarityOrd (normKey c) < rarityOrd (normKey m) := by
  by_cases h : rarityOrd (normKey m) > rarityOrd (normKey c)
  · simp [validateRarity, h]
  · simp [validateRarity, h]

/-- Everything `performInstall` commits on success, in one statement:
the appended entry, the appended processed effects, the merged tags
(existing tags preserved, injected tags now present), and the untouched
rarity/uuid; a chassis without an owning actor still has none. -/
theorem performInstall_spec (st : ChassisState) (mod : ItemDoc) (st' : ChassisState)
    (h : performInstall st mod = some st') :
    (∃ props, getInjectedProperties mod = some props ∧
      st'.installedMods = st.installedMods ++ [newModEntry st mod props] ∧
      (∀ p ∈ props, p ∈ st'.properties) ∧
      (∀ p ∈ st.properties, p ∈ st'.properties)) ∧
    st'.effects = st.effects ++ installEffects st mod ∧
    st'.rarity = st.rarity ∧ st'.uuid = st.uuid ∧
    (st.actor = none → st'.actor = none) := by
  cases hgp : getInjectedProperties mod with
  | none => simp [performInstall, hgp] at h
  | some props =>
    simp only [performInstall, hgp, Option.some.injEq] at h
    subst h
    refine ⟨⟨props, rfl, rfl, ?_, ?_⟩, ?_, rfl, rfl, ?_⟩
    · intro p hp
      have hlen : props.length > 0 := List.length_pos.mpr (List.ne_nil_of_mem hp)
      simp only [if_pos hlen, mem_jsSetDedup, List.mem_append]
      exact Or.inr hp
    · intro p hp
      by_cases hlen : props.length > 0
      · simp only [if_pos hlen, mem_jsSetDedup, List.mem_append]
        exact Or.inl hp
      · simpa [hlen] using hp
    · by_cases hpe : (installEffects st mod).length > 0
      · simp [hpe]
      · have hnil : installEffects st mod = [] := List.length_eq_zero.mp (by omega)
        simp [hpe, hnil]
    · intro hA
      simp [hA]

/-- The success case grows the installed list by exactly one and keeps the
chassis rarity. -/
theorem performInstall_len (st : ChassisState) (mod : ItemDoc) (st' : ChassisState)
    (h : performInstall st mod = some st') :
    st'.installedMods.length = st.installedMods.length + 1 ∧ st'.rarity = st.rarity := by
  obtain ⟨⟨props, _, hIM, _, _⟩, _, hR, _, _⟩ := performInstall_spec st mod st' h
  constructor
  · rw [hIM]; simp
  · exact hR

/-- The state component of `performRemove`, independent of the reported
outcome: entry filtered out, stamped effects deleted, the removed entry's
tags subtracted, rarity and uuid untouched. -/
theorem performRemove_state (st : ChassisState) (modId : String) (sal : Bool) :
    (performRemove st modId sal).1.installedMods =
        st.installedMods.filter (fun m => !(m.id == modId)) ∧
    (performRemove st modId sal).1.effects = removeStampedEffects st.effects modId ∧
    (performRemove st modId sal).1.properties =
      (match st.installedMods.find? (fun m => m.id == modId) with
       | some m => subtractProps st.properties m
       | none => st.properties) ∧
    (performRemove st modId sal).1.rarity = st.rarity ∧
    (performRemove st modId sal).1.uuid = st.uuid := by
  unfold performRemove
  cases hfind : st.installedMods.find? (fun m => m.id == modId) with
  | none => cases sal <;> simp [hfind]
  | some m =>
    cases sal with
    | false => simp [hfind]
    | true =>
      cases hA : st.actor with
      | none => cases hO : m.originalData <;> simp [hfind, hA, hO]
      | some a => cases hO : m.originalData <;> simp [hfind, hA, hO]

/-- Removal never grows the installed list and keeps the chassis rarity. -/
theorem performRemove_len (st : ChassisState) (modId : String) (sal : Bool) :
    (performRemove st modId sal).1.installedMods.length ≤ st.installedMods.length ∧
    (performRemove st modId sal).1.rarity = st.rarity := by
  obtain ⟨hIM, _, _, hR, _⟩ := performRemove_state st modId sal
  exact ⟨by rw [hIM]; exact List.length_filter_le _ _, hR⟩

/-- Invariant preservation for one drop-handler install. -/
theorem slotInv_dropInstall (slotSetting : String → Option Nat) (st : ChassisState)
    (mod : ItemDoc) (res : Resolution) (h : slotInv slotSetting st) :
    slotInv slotSetting (dropInstall slotSetting st mod res).1 := by
  unfold dropInstall
  by_cases h1 : (!(isModification (some mod))) = true
  · rw [if_pos h1]; exact h
  · rw [if_neg h1]
    by_cases h2 : (!(hasAvailableSlots slotSetting st)) = true
    · rw [if_pos h2]; exact h
    · rw [if_neg h2]
      have hlt : st.installedMods.length < maxSlots slotSetting st.rarity := by
        have htrue : hasAvailableSlots slotSetting st = true := by
          cases hb : hasAvailableSlots slotSetting st
          · simp [hb] at h2
          · rfl
        simpa [hasAvailableSlots] using htrue
      have hinst : ∀ st', performInstall st mod = some st' → slotInv slotSetting st' := by
        intro st' hpi
        obtain ⟨hlen, hrar⟩ := performInstall_len st mod st' hpi
        unfold slotInv
        rw [hlen, hrar]
        omega
      by_cases h3 : (!(validateRarity st.rarity mod.record.system.rarity)) = true
      · rw [if_pos h3]; exact h
      · rw [if_neg h3]
        cases res with
        | direct =>
          cases hpi : performInstall st mod with
          | none => exact h
          | some st' => exact hinst st' hpi
        | checked total =>
          cases hA : st.actor with
          | none => exact h
          | some a =>
            dsimp only
            by_cases hdc : total ≥ (dialogDCDoc mod : Int)
            · rw [if_pos hdc]
              cases hpi : performInstall st mod with
              | none => exact h
              | some st' => exact hinst st' hpi
            · rw [if_neg hdc]; exact h

/-- Invariant preservation for one click-initiated removal. -/
theorem slotInv_removeClick (st : ChassisState) (modId : String) (res : Resolution)
    (dof : Bool) (slotSetting : String → Option Nat) (h : slotInv slotSetting st) :
    slotInv slotSetting (removeClick st modId res dof).1 := by
  unfold removeClick
  cases hfind : st.installedMods.find? (fun m => m.id == modId) with
  | none => exact h
  | some m =>
    have hrem : ∀ sal : Bool, slotInv slotSetting (performRemove st modId sal).1 := by
      intro sal
      obtain ⟨hlen, hrar⟩ := performRemove_len st modId sal
      unfold slotInv at *
      rw [hrar]
      omega
    cases res with
    | direct => exact hrem true
    | checked total =>
      cases hA : st.actor with
      | none => exact h
      | some a =>
        dsimp only
        by_cases hdc : total ≥ (dialogDCMod m : Int)
        · rw [if_pos hdc]; exact hrem true
        · rw [if_neg hdc]
          cases dof with
          | true => simpa using hrem false
          | false => simpa using h

/-- An `installed` outcome of the drop handler pins down the resulting
state: it is exactly the successful `performInstall` commit. -/
theorem dropInstall_installed (slotSetting : String → Option Nat) (st : ChassisState)
    (mod : ItemDoc) (res : Resolution)
    (h : (dropInstall slotSetting st mod res).2 = InstallOutcome.installed) :
    performInstall st mod = some (dropInstall slotSetting st mod res).1 := by
  revert h
  unfold dropInstall
  by_cases h1 : (!(isModification (some mod))) = true
  · rw [if_pos h1]; intro h; simp at h
  · rw [if_neg h1]
    by_cases h2 : (!(hasAvailableSlots slotSetting st)) = true
    · rw [if_pos h2]; intro h; simp at h
    · rw [if_neg h2]
      by_cases h3 : (!(validateRarity st.rarity mod.record.system.rarity)) = true
      · rw [if_pos h3]; intro h; simp at h
      · rw [if_neg h3]
        cases res with
        | direct =>
          cases hpi : performInstall st mod with
          | none => intro h; simp at h
          | some st' => intro _; rfl
        | checked total =>
          cases hA : st.actor with
          | none => intro h; simp at h
          | some a =>
            dsimp only
            by_cases hdc : total ≥ (dialogDCDoc mod : Int)
            · rw [if_pos hdc]
              cases hpi : performInstall st mod with
              | none => intro h; simp at h
              | some st' => intro _; rfl
            · rw [if_neg hdc]; intro h; simp at h

/-- Invariant preservation for any single interface operation. -/
theorem slotInv_runOp (slotSetting : String → Option Nat) (st : ChassisState) (op : Op)
    (h : slotInv slotSetting st) : slotInv slotSetting (runOp slotSetting st op) := by
  cases op with
  | drop mod res => exact slotInv_dropInstall slotSetting st mod res h
  | uninstall modId res dof => exact slotInv_removeClick st modId res dof slotSetting h

/-! ### Claim theorems -/

/-- C1: an item whose declared type is the unsupported `"modification"`
type, once masked by the `preCreateItem` hook (type rewritten to the
generic `"loot"` type, full original record embedded under the
vendor-namespaced flag) and then unmasked by the read-back performed in
`performInstall`, yields a record equal field-for-field to the original:
no field of the original record is lost by the mask. -/
theorem mask_unmask_roundtrip (r : ItemRecord) (h : r.type = "modification") :
    installPayload (preCreateItemHook r) = some r := by
  cases r with
  | mk n t i s w o f =>
    simp only [ItemRecord.type] at h
    subst h
    rfl

/-- Witness for C1 at a concrete raw modification record. -/
theorem mask_unmask_roundtrip_witness :
    sampleModRecord.type = "modification" ∧
      installPayload (preCreateItemHook sampleModRecord) = some sampleModRecord :=
  ⟨rfl, mask_unmask_roundtrip sampleModRecord rfl⟩

/-- C2: for every chassis and every sequence of install and removal
operations performed through the public interface (drag-and-drop install
with its gating checks, dialog-driven install resolution, click-initiated
dialog-driven removal), the installed-modification list never exceeds the
configured maximum slot count for the chassis's rarity.  Every observable
point is covered by instantiating `ops` at each prefix of a longer
sequence; the settings store is fixed across the sequence, and only the
drop-handler gate admits an install, so the invariant is inductive. -/
theorem slot_capacity_invariant (slotSetting : String → Option Nat) (st : ChassisState)
    (ops : List Op) (h : slotInv slotSetting st) :
    slotInv slotSetting (runOps slotSetting st ops) := by
  induction ops generalizing st with
  | nil => exact h
  | cons op rest ih => exact ih (runOp slotSetting st op) (slotInv_runOp slotSetting st op h)

/-- Witness for C2: an empty common chassis, one direct install followed by
one direct removal. -/
theorem slot_capacity_invariant_witness :
    slotInv slotSetting0 chassis0 ∧
      slotInv slotSetting0 (runOps slotSetting0 chassis0
        [Op.drop modDoc0 Resolution.direct, Op.uninstall "m1" Resolution.direct false]) :=
  ⟨by decide, slot_capacity_invariant slotSetting0 chassis0 _ (by decide)⟩

/-- C4: a candidate modification whose rarity ordinal is strictly greater
than the chassis's is never installed: whatever the resolution mode, the
chassis state is completely unchanged (no mutation begins before the checks
pass), and the reported reason is the rarity incompatibility whenever the
capacity gate — which the drop handler evaluates first — passes; with no
free slot the (earlier) capacity rejection is reported instead. -/
theorem rarity_gating (slotSetting : String → Option Nat) (st : ChassisState) (mod : ItemDoc)
    (res : Resolution)
    (hmod : isModification (some mod) = true)
    (hr : rarityOrd (normKey st.rarity) < rarityOrd (normKey mod.record.system.rarity)) :
    (dropInstall slotSetting st mod res).1 = st ∧
    (hasAvailableSlots slotSetting st = true →
      (dropInstall slotSetting st mod res).2 = InstallOutcome.rarityRejected) ∧
    (hasAvailableSlots slotSetting st = false →
      (dropInstall slotSetting st mod res).2 = InstallOutcome.noSlots) := by
  have hval : validateRarity st.rarity mod.record.system.rarity = false :=
    (validateRarity_eq_false_iff _ _).mpr hr
  unfold dropInstall
  rw [if_neg (by simp [hmod])]
  cases h2 : hasAvailableSlots slotSetting st with
  | true =>
    rw [if_neg (by simp [h2]), if_pos (by simp [hval])]
    exact ⟨rfl, fun _ => rfl, fun hf => by simp at hf⟩
  | false =>
    rw [if_pos (by simp [h2])]
    exact ⟨rfl, fun ht => by simp at ht, fun _ => rfl⟩

/-- Witness for C4: a rare modification dropped on an empty common chassis
with free slots is rejected for rarity and the chassis is unchanged. -/
theorem rarity_gating_witness :
    isModification (some modRare0) = true ∧
    rarityOrd (normKey chassis0.rarity) < rarityOrd (normKey modRare0.record.system.rarity) ∧
    hasAvailableSlots slotSetting0 chassis0 = true ∧
    (dropInstall slotSetting0 chassis0 modRare0 Resolution.direct).1 = chassis0 ∧
    (dropInstall slotSetting0 chassis0 modRare0 Resolution.direct).2 =
      InstallOutcome.rarityRejected := by
  have h := rarity_gating slotSetting0 chassis0 modRare0 Resolution.direct (by decide) (by decide)
  exact ⟨by decide, by decide, by decide, h.1, h.2.1 (by decide)⟩

/-- Counterexample to C3: a chassis with two installed modifications that
both contributed the tag `"keen"`.  Removing one of them through the public
interface (the uninstall click with Direct resolution) erases `"keen"` from
the chassis tag set even though the surviving entry still lists it — the
claim asserts the tag would be left present. -/
theorem shared_tag_lost_on_removal :
    (removeClick dualTagChassis "m1" Resolution.direct false).1.properties = [] ∧
    (removeClick dualTagChassis "m1" Resolution.direct false).1.installedMods.map
      InstalledMod.properties = [["keen"]] ∧
    "keen" ∉ (removeClick dualTagChassis "m1" Resolution.direct false).1.properties :=
  ⟨rfl, rfl, by decide⟩

/-- C3 amended: removal subtracts the removed entry's tags naively — the
surviving tag set is the chassis tag list filtered by the removed entry's
contribution, so every tag the removed entry contributed is absent
afterwards, whether or not another installed entry also contributed it
(in particular, removing the last contributor does remove the tag). -/
theorem tag_subtraction_naive (st : ChassisState) (modId : String) (sal : Bool)
    (m : InstalledMod)
    (hfind : st.installedMods.find? (fun x => x.id == modId) = some m) :
    (performRemove st modId sal).1.properties =
      st.properties.filter (fun p => !(m.properties.contains p)) ∧
    ∀ p ∈ m.properties, p ∉ (performRemove st modId sal).1.properties := by
  obtain ⟨_, _, hP, _, _⟩ := performRemove_state st modId sal
  rw [hfind] at hP
  have heq : (performRemove st modId sal).1.properties =
      st.properties.filter (fun p => !(m.properties.contains p)) := by
    rw [hP]
    dsimp only
    unfold subtractProps
    by_cases hlen : m.properties.length > 0
    · rw [if_pos hlen]
    · rw [if_neg hlen]
      have hnil : m.properties = [] := List.length_eq_zero.mp (by omega)
      simp [hnil]
  refine ⟨heq, ?_⟩
  intro p hp hmem
  rw [heq] at hmem
  rcases List.mem_filter.mp hmem with ⟨_, hpred⟩
  simp at hpred
  exact hpred hp

/-- Witness for the amended C3 at the two-entry chassis. -/
theorem tag_subtraction_naive_witness :
    dualTagChassis.installedMods.find? (fun x => x.id == "m1") = some (keenEntry "m1") ∧
    (performRemove dualTagChassis "m1" true).1.properties =
      dualTagChassis.properties.filter (fun p => !((keenEntry "m1").properties.contains p)) := by
  have h := tag_subtraction_naive dualTagChassis "m1" true (keenEntry "m1") rfl
  exact ⟨rfl, h.1⟩

/-- C5: a Checked removal whose roll fails.  With `destroyOnFail` unchecked
the call returns the chassis state untouched (targeted entry still
installed, no effects deleted, no tags removed) and reports that nothing
changed; with `destroyOnFail` checked the entry is dropped from the list,
every chassis effect stamped with its source id is deleted, the reported
outcome is the destructive one, and no item is reconstituted (the actor's
inventory is untouched). -/
theorem checked_removal_failure (st : ChassisState) (modId : String) (total : Int)
    (m : InstalledMod) (a : ActorState)
    (hfind : st.installedMods.find? (fun x => x.id == modId) = some m)
    (hA : st.actor = some a)
    (hfail : total < (dialogDCMod m : Int)) :
    removeClick st modId (Resolution.checked total) false = (st, RemoveOutcome.unchanged) ∧
    (removeClick st modId (Resolution.checked total) true).2 = RemoveOutcome.destroyed ∧
    modId ∉ (removeClick st modId (Resolution.checked total) true).1.installedMods.map
      InstalledMod.id ∧
    (∀ e ∈ (removeClick st modId (Resolution.checked total) true).1.effects,
      e.sourceMod ≠ some modId) ∧
    (removeClick st modId (Resolution.checked total) true).1.actor = st.actor := by
  have hred : ∀ dof : Bool, removeClick st modId (Resolution.checked total) dof =
      (if dof then performRemove st modId false else (st, RemoveOutcome.unchanged)) := by
    intro dof
    unfold removeClick
    rw [hfind]
    dsimp only
    rw [hA]
    dsimp only
    rw [if_neg (not_le.mpr hfail)]
  have h1 : removeClick st modId (Resolution.checked total) true =
      performRemove st modId false := by simpa using hred true
  have hdes : (performRemove st modId false).2 = RemoveOutcome.destroyed := by
    simp [performRemove, hfind]
  have hact : (performRemove st modId false).1.actor = st.actor := by
    simp [performRemove, hfind]
  obtain ⟨hIM, hEff, _, _, _⟩ := performRemove_state st modId false
  refine ⟨by simpa using hred false, ?_, ?_, ?_, ?_⟩
  · rw [h1]; exact hdes
  · rw [h1, hIM]
    intro hmem
    rcases List.mem_map.mp hmem with ⟨x, hx, hxid⟩
    rcases List.mem_filter.mp hx with ⟨_, hpred⟩
    simp [hxid] at hpred
  · rw [h1, hEff]
    exact removeStampedEffects_not_stamped st.effects modId
  · rw [h1]; exact hact

/-- Witness for C5: one installed entry, an owning actor, a roll of 3
against the entry's DC of 10. -/
theorem checked_removal_failure_witness :
    c5Chassis.installedMods.find? (fun x => x.id == "m1") = some (keenEntry "m1") ∧
    removeClick c5Chassis "m1" (Resolution.checked 3) false =
      (c5Chassis, RemoveOutcome.unchanged) ∧
    (removeClick c5Chassis "m1" (Resolution.checked 3) true).2 = RemoveOutcome.destroyed := by
  have h := checked_removal_failure c5Chassis "m1" 3 (keenEntry "m1") actor0 rfl rfl (by decide)
  exact ⟨rfl, h.1, h.2.1⟩

/-- C6 (code bug exhibit): a removal request for an id that was never
installed.  The salvage variant is a deterministic benign no-op (state
unchanged, silent), but the destroy variant reaches the report line
`modToRemoval.name` with `modToRemoval === undefined` — the find returned
nothing and the access is not optional-chained, unlike the neighbouring
`modToRemoval?.properties` and `modToRemoval?.originalData` — so it raises
a `TypeError` instead of completing without exception as the claim states
(its state writes, all no-ops, have already committed by then). -/
theorem missing_id_removal_behavior :
    performRemove chassis0 "ghost" true = (chassis0, RemoveOutcome.silent) ∧
    performRemove chassis0 "ghost" false = (chassis0, RemoveOutcome.threw) :=
  ⟨rfl, rfl⟩

/-- Counterexample to C7: an unknown rarity label resolves to DC 14 — the
uncommon/premium DC — while `"common"` resolves to DC 10, so unknown labels
do not resolve to common's install DC as the claim states. -/
theorem unknown_rarity_dc_not_common :
    rarityDC (normKey (some "cortosis")) = 14 ∧
    rarityDC (normKey (some "common")) = 10 ∧
    rarityDC (normKey (some "cortosis")) ≠ rarityDC (normKey (some "common")) :=
  ⟨by decide, by decide, by decide⟩

/-- C7 amended: lookups never fail on unknown or missing labels, and the
lookup key is always the lower-cased, whitespace-stripped label (a missing
or empty label becomes `"common"` first).  But the fallbacks are not all
common's values: the ordinal falls back to 1 (common's ordinal), the DC
falls back to the literal 14 (the uncommon/premium DC, not common's 10),
and the slot count falls back to the literal 2 (the default, not the
configured common slot count). -/
theorem rarity_leniency_amended (r : Option String) (slotSetting : String → Option Nat)
    (hord : lookupTab rarityScaleTable (normKey r) = none)
    (hdc : lookupTab rarityDCTable (normKey r) = none)
    (hset : slotSetting (normKey r) = none) :
    rarityOrd (normKey r) = 1 ∧ rarityDC (normKey r) = 14 ∧
    maxSlots slotSetting r = 2 ∧
    ∀ s : String, s ≠ "" → normKey (some s) = stripWs (jsToLower s) := by
  refine ⟨?_, ?_, ?_, ?_⟩
  · simp [rarityOrd, hord]
  · simp [rarityDC, hdc]
  · simp [maxSlots, hset]
  · intro s hs
    simp [normKey, jsOrS, hs]

/-- Witness for the amended C7: the unknown label `"cortosis"` with an
empty settings store, plus the normalization of `"Very Rare"`. -/
theorem rarity_leniency_amended_witness :
    rarityOrd (normKey (some "cortosis")) = 1 ∧
    rarityDC (normKey (some "cortosis")) = 14 ∧
    maxSlots (fun _ => none) (some "cortosis") = 2 ∧
    normKey (some "Very Rare") = normKey (some "veryrare") := by
  have h := rarity_leniency_amended (some "cortosis") (fun _ => none)
    (by decide) (by decide) rfl
  refine ⟨h.1, h.2.1, h.2.2.1, ?_⟩
  rw [h.2.2.2 "Very Rare" (by decide), h.2.2.2 "veryrare" (by decide)]
  decide

/-- Counterexample to C8: a successful direct install on a chassis with no
owning actor.  The install commits (the entry is recorded), yet the source
item is still sitting in the world-item collection it came from — it was
not removed from its prior location, contrary to the claim. -/
theorem install_leaves_source_in_world :
    (dropInstallW slotSetting0 world0 modDoc0 Resolution.direct).2 =
      InstallOutcome.installed ∧
    (dropInstallW slotSetting0 world0 modDoc0 Resolution.direct).1.worldItems = [modDoc0] ∧
    (dropInstallW slotSetting0 world0 modDoc0 Resolution.direct).1.chassis.installedMods.map
      InstalledMod.id = ["m1"] :=
  ⟨rfl, rfl, rfl⟩

/-- C8 amended: a successful install records the entry, creates the
projected effects on the chassis, and merges the projected tags into the
chassis tag set; but the source item is consumed only from the owning
actor's inventory — the world collection is never touched, and a chassis
without an owning actor deletes nothing (it has no inventory to delete
from). -/
theorem install_consumes_only_actor_copy (slotSetting : String → Option Nat)
    (w : WorldState) (mod : ItemDoc) (res : Resolution)
    (h : (dropInstallW slotSetting w mod res).2 = InstallOutcome.installed) :
    (dropInstallW slotSetting w mod res).1.worldItems = w.worldItems ∧
    (∃ props, getInjectedProperties mod = some props ∧
      (dropInstallW slotSetting w mod res).1.chassis.installedMods =
        w.chassis.installedMods ++ [newModEntry w.chassis mod props] ∧
      (∀ p ∈ props, p ∈ (dropInstallW slotSetting w mod res).1.chassis.properties)) ∧
    (dropInstallW slotSetting w mod res).1.chassis.effects =
      w.chassis.effects ++ installEffects w.chassis mod ∧
    (w.chassis.actor = none →
      (dropInstallW slotSetting w mod res).1.chassis.actor = none) := by
  have hpi := dropInstall_installed slotSetting w.chassis mod res h
  obtain ⟨⟨props, hgp, hIM, hpmem, _⟩, hEff, _, _, hAct⟩ :=
    performInstall_spec w.chassis mod (dropInstall slotSetting w.chassis mod res).1 hpi
  exact ⟨rfl, ⟨props, hgp, hIM, hpmem⟩, hEff, hAct⟩

/-- Witness for the amended C8 at the concrete actorless world. -/
theorem install_consumes_only_actor_copy_witness :
    (dropInstallW slotSetting0 world0 modDoc0 Resolution.direct).2 =
      InstallOutcome.installed ∧
    (dropInstallW slotSetting0 world0 modDoc0 Resolution.direct).1.worldItems =
      world0.worldItems ∧
    (dropInstallW slotSetting0 world0 modDoc0 Resolution.direct).1.chassis.actor = none := by
  have h := install_consumes_only_actor_copy slotSetting0 world0 modDoc0
    Resolution.direct (by decide)
  exact ⟨by decide, h.1, h.2.2.2 rfl⟩

/-- C9: a salvage removal (`isSalvaged = true`) of an installed entry
reconstitutes the modification — as a masked loot item wrapping the
preserved payload, appended to the owning actor's inventory — exactly when
the chassis is embedded in an actor and the stored entry kept an original
payload; on a chassis with no owning actor the entry is still dropped and
its stamped effects deleted, but no item is recreated and neither the
salvage nor the destroy report is emitted. -/
theorem salvage_requires_actor_and_payload (st : ChassisState) (modId : String)
    (m : InstalledMod)
    (hfind : st.installedMods.find? (fun x => x.id == modId) = some m) :
    ((performRemove st modId true).2 = RemoveOutcome.salvaged ↔
      (st.actor.isSome = true ∧ m.originalData.isSome = true)) ∧
    (st.actor = none →
      (performRemove st modId true).2 = RemoveOutcome.silent ∧
      (performRemove st modId true).1.installedMods =
        st.installedMods.filter (fun x => !(x.id == modId)) ∧
      (∀ e ∈ (performRemove st modId true).1.effects, e.sourceMod ≠ some modId) ∧
      (performRemove st modId true).1.actor = none) ∧
    (∀ a orig, st.actor = some a → m.originalData = some orig →
      (performRemove st modId true).1.actor =
        some ⟨a.items ++ [⟨"", none, lootWrapper orig, []⟩]⟩ ∧
      (lootWrapper orig).type = "loot" ∧ (lootWrapper orig).isWrappedMod = true ∧
      installPayload (lootWrapper orig) = some orig) := by
  refine ⟨?_, ?_, ?_⟩
  · cases hA : st.actor with
    | none => cases hO : m.originalData <;> simp [performRemove, hfind, hA, hO]
    | some a => cases hO : m.originalData <;> simp [performRemove, hfind, hA, hO]
  · intro hA
    obtain ⟨hIM, hEff, _, _, _⟩ := performRemove_state st modId true
    refine ⟨?_, hIM, ?_, ?_⟩
    · simp [performRemove, hfind, hA]
    · intro e he
      rw [hEff] at he
      exact removeStampedEffects_not_stamped st.effects modId e he
    · simp [performRemove, hfind, hA]
  · intro a orig hA hO
    refine ⟨?_, rfl, rfl, rfl⟩
    simp [performRemove, hfind, hA, hO]

/-- Witness for C9: an actor-owned chassis whose entry kept its payload is
reported salvaged. -/
theorem salvage_requires_actor_and_payload_witness :
    c9Chassis.installedMods.find? (fun x => x.id == "m9") = some c9Entry ∧
    (performRemove c9Chassis "m9" true).2 = RemoveOutcome.salvaged := by
  have h := salvage_requires_actor_and_payload c9Chassis "m9" c9Entry rfl
  exact ⟨rfl, h.1.mpr ⟨rfl, rfl⟩⟩

/-- C10: the modification classifier returns `false`, without raising, on
a null/undefined input, and on every non-null item it is a total boolean
function: every possibly-missing field it touches (`uuid`, `name`,
`system.type.value`, `system.type.label`, the vendor flags) is
optional-chained or defaulted in the source, which the embedding mirrors
with total `Option` operations, so no input can raise. -/
theorem isModification_null_safe_total :
    isModification none = false ∧
      ∀ d : ItemDoc, isModification (some d) = true ∨ isModification (some d) = false := by
  refine ⟨rfl, ?_⟩
  intro d
  cases h : isModification (some d)
  · exact Or.inr rfl
  · exact Or.inl rfl

end SW5e
